import Mathlib

/-!
# Verification of the static-server core

A shallow embedding of the static HTTP server's core:
path resolution (`urlToPath`), the `HttpError` type, static-file
resolution (`getStaticFile`), the static handler, and the handler-chain
executor (`createRequestListener`).

## Modelling conventions

* A filesystem path or URL string is modelled by its list of
  `/`-separated segments.  A string `s` is represented by
  `s.splitOn "/"`; since string concatenation `a ++ "/" ++ b`
  corresponds to appending segment lists, the string operations of the
  source become list appends here.  An absolute path string (one that
  starts with `/`) is a segment list whose head is the empty segment
  `""`.
* An HTTP request URL always starts with `/`; it is represented by the
  list of segments after that leading separator, so `"/a/b"` is
  `["a", "b"]`, `"/docs/"` is `["docs", ""]`, and `"/"` is `[""]`.
  The string test `url.endsWith "/"` becomes `url.getLast? = some ""`,
  and appending the string `"/index.html"` becomes appending the
  segment `["index.html"]`.
* The process working directory (used by Node's `path.resolve` for
  relative inputs) is an explicit parameter `cwd`, given as the
  canonical segment list of an absolute directory.
* The filesystem is an explicit map from canonical absolute paths
  (segment lists) to nodes; `fs.readFile` becomes the pure `readFile`
  over that map, returning the error codes the source dispatches on.
* Exceptions are modelled with `Except`: a function that can throw
  returns `Except e α`, and a caught-and-rethrown error is an
  `Except.error` result.
-/

set_option autoImplicit false

namespace StaticServer

/-! ## Path resolution (Node `path.resolve` / `path.parse` collaborators) -/

/-- One step of path canonicalization: empty and `.` segments are
dropped, `..` removes the last stacked segment (and is dropped at the
root, as for an absolute path), and any other segment is pushed. -/
def canonStep (stack : List String) (seg : String) : List String :=
  if seg = "" ∨ seg = "." then stack
  else if seg = ".." then stack.dropLast
  else stack ++ [seg]

/-- Canonicalize a list of raw segments on top of `stack`, resolving
`.` and `..` segments.  This is the normalization performed by Node's
`path.resolve` on an absolute path. -/
def canonicalize (stack : List String) : List String → List String
  | [] => stack
  | seg :: rest => canonicalize (canonStep stack seg) rest

/-- Node's `path.resolve` with a single argument, with the working
directory explicit: an absolute input (head segment `""`) is
canonicalized as is, a relative input is canonicalized on top of the
working directory. -/
def resolvePath (cwd : List String) (segs : List String) : List String :=
  if segs.head? = some "" then canonicalize [] segs
  else canonicalize [] (cwd ++ segs)

/-- Index of the last `.` character in a list of characters. -/
def lastDot : List Char → Option Nat
  | [] => none
  | c :: rest =>
    match lastDot rest with
    | some i => some (i + 1)
    | none => if c = '.' then some 0 else none

/-- Node's `path.parse` restricted to the fields the source uses:
split a base name into `(name, ext)`.  There is no extension when the
base contains no dot, when the last dot is the first character
(dotfiles such as `.env`), or when the base is `..`. -/
def splitExt (base : String) : String × String :=
  let cs := base.toList
  match lastDot cs with
  | none => (base, "")
  | some i =>
    if i = 0 ∨ base = ".." then (base, "")
    else (⟨cs.take i⟩, ⟨cs.drop i⟩)

/-- The `(name, ext)` fields of `path.parse` applied to a resolved
path: both are computed from the final segment (the base name). -/
def parseNameExt (path : List String) : String × String :=
  splitExt (path.getLast?.getD "")

/-- `String.startsWith` from the source, restated on character lists
(the library version is defined by well-founded recursion on byte
positions and does not evaluate by reduction). -/
def strStartsWith (s pre : String) : Bool :=
  pre.toList.isPrefixOf s.toList

/-- `urlToPath` from the source: returns a best-guess file path based
on a root-relative URL.  If the URL ends in a separator, the string
`"/index.html"` is appended before joining; the concatenation
`directory + url` is then resolved. -/
def urlToPath (cwd : List String) (directory : List String) (url : List String) :
    List String :=
  resolvePath cwd
    (directory ++ (if url.getLast? = some "" then url ++ ["index.html"] else url))

/-! ## External collaborators, specified at their boundary -/

/-- Modelled from the spec: the standard status-code-to-phrase table
(the `STATUS_CODES` collaborator of the `http` module).  Codes missing
from the table have no phrase. -/
def statusCodes (code : Nat) : Option String :=
  if code = 200 then some "OK"
  else if code = 301 then some "Moved Permanently"
  else if code = 302 then some "Found"
  else if code = 400 then some "Bad Request"
  else if code = 401 then some "Unauthorized"
  else if code = 403 then some "Forbidden"
  else if code = 404 then some "Not Found"
  else if code = 500 then some "Internal Server Error"
  else if code = 501 then some "Not Implemented"
  else if code = 503 then some "Service Unavailable"
  else none

/-- Modelled from the spec: the external MIME-table collaborator
(`mimeTypes.contentType`).  A known extension yields a full
content-type value; an unknown extension yields no value (`none`),
never an error. -/
def mimeContentType (ext : String) : Option String :=
  if ext = ".html" then some "text/html; charset=utf-8"
  else if ext = ".css" then some "text/css; charset=utf-8"
  else if ext = ".js" then some "application/javascript; charset=utf-8"
  else if ext = ".json" then some "application/json; charset=utf-8"
  else if ext = ".txt" then some "text/plain; charset=utf-8"
  else if ext = ".png" then some "image/png"
  else none

/-! ## HttpError -/

/-- `HttpError` from the source: a status code together with the
phrase looked up in the status-code table (which may be absent for
codes the table does not list). -/
structure HttpError where
  statusCode : Nat
  statusMessage : Option String
deriving DecidableEq, Repr

/-- The fields an `HttpError` carries once construction succeeded. -/
def mkHttpError (code : Nat) : HttpError :=
  { statusCode := code, statusMessage := statusCodes code }

/-- The `HttpError` constructor: looks up the message, then rejects
any code outside 400–599 by throwing a plain `Error` (modelled as
`Except.error` with the message string); otherwise the code and the
looked-up phrase are stored. -/
def HttpError.make (code : Nat) : Except String HttpError :=
  if code < 400 ∨ code > 599 then
    Except.error ("HTTP status code " ++ toString code ++ " is not an error")
  else
    Except.ok (mkHttpError code)

/-! ## Filesystem model -/

/-- A node of the modelled filesystem: a file with contents and a
readability flag, a directory, or a node whose read fails with some
other error code. -/
inductive FsNode where
  | file (contents : String) (readable : Bool)
  | dir
  | special (errorCode : String)
deriving DecidableEq, Repr

/-- The filesystem: a map from canonical absolute paths to nodes. -/
def Fs : Type := List String → Option FsNode

/-- Error codes of `fs.readFile` that the source dispatches on. -/
inductive FsError where
  | EACCES
  | EISDIR
  | ENOENT
  | other (code : String)
deriving DecidableEq, Repr

/-- `fs.readFile` over the modelled filesystem: a readable file yields
its contents, an unreadable file yields `EACCES`, a directory yields
`EISDIR`, a missing path yields `ENOENT`, and a special node yields
its own error code. -/
def readFile (fs : Fs) (path : List String) : Except FsError String :=
  match fs path with
  | some (FsNode.file contents true) => Except.ok contents
  | some (FsNode.file _ false) => Except.error FsError.EACCES
  | some FsNode.dir => Except.error FsError.EISDIR
  | some (FsNode.special code) => Except.error (FsError.other code)
  | none => Except.error FsError.ENOENT

/-! ## Requests, responses, resolved files -/

/-- The request, restricted to the field the core reads. -/
structure Request where
  url : List String
deriving DecidableEq, Repr

/-- The response object: status code, headers, body, and the
`writableEnded` flag set by its terminal write. -/
structure Response where
  ended : Bool := false
  statusCode : Nat := 200
  headers : List (String × String) := []
  body : String := ""
deriving DecidableEq, Repr

/-- Modelled from the spec: the transport layer's `writeHead` at its
boundary — the response is write-once, so once it has been finalized
no further write is permitted and the call fails. -/
def Response.writeHead (r : Response) (code : Nat) (hs : List (String × String)) :
    Except Unit Response :=
  if r.ended then Except.error ()
  else Except.ok { r with statusCode := code, headers := hs }

/-- Modelled from the spec: the transport layer's `end` — writes the
body and finalizes the response. -/
def Response.endWith (r : Response) (body : String) : Response :=
  { r with body := body, ended := true }

/-- The result of a successful static-file resolution: body, the
optional `Content-Type` and `Location` headers, and the status code.
The `Location` value is a URL in segment representation. -/
structure ResolvedFile where
  body : String
  contentType : Option String := none
  location : Option (List String) := none
  statusCode : Nat
deriving DecidableEq, Repr

/-! ## Static file resolution -/

/-- `getStaticFile` from the source.  The candidate path is computed
with `urlToPath`; a dotfile base name is denied with 403 before any
read; otherwise the file is read and a 200 result carries the body and
the MIME lookup of the extension.  Filesystem failures are translated:
`EACCES` to 403, `EISDIR` to a 302 redirect to the URL with a
separator appended, `ENOENT` to 404, anything else to 500.  A thrown
`HttpError` is re-thrown unchanged. -/
def getStaticFile (fs : Fs) (cwd : List String) (request : Request)
    (directory : List String) : Except HttpError ResolvedFile :=
  let filePath := urlToPath cwd directory request.url
  let name := (parseNameExt filePath).1
  let ext := (parseNameExt filePath).2
  if strStartsWith name "." then Except.error (mkHttpError 403)
  else
    match readFile fs filePath with
    | Except.ok body =>
        Except.ok { body := body, contentType := mimeContentType ext, statusCode := 200 }
    | Except.error FsError.EACCES => Except.error (mkHttpError 403)
    | Except.error FsError.EISDIR =>
        Except.ok { body := "", location := some (request.url ++ [""]), statusCode := 302 }
    | Except.error FsError.ENOENT => Except.error (mkHttpError 404)
    | Except.error (FsError.other _) => Except.error (mkHttpError 500)

/-! ## Handler chain executor -/

/-- What one thrown JavaScript value can be, as the executor
distinguishes them: an `HttpError` instance, or anything else. -/
inductive Thrown where
  | httpError (e : HttpError)
  | other (message : String)
deriving DecidableEq, Repr

/-- The outcome of one handler call: the response state it left
behind, whether it invoked the continuation signal `next`, and the
value it threw, if any.  (A handler that throws aborts the loop
whatever it did to `next` beforehand.) -/
structure HandlerOutcome where
  response : Response
  next : Bool
  thrown : Option Thrown
deriving DecidableEq, Repr

/-- A handler: given the request and the current response state it
produces an outcome. -/
def Handler : Type := Request → Response → HandlerOutcome

/-- The handler loop of `createRequestListener`: run each handler with
a fresh `next = false` flag; a thrown value aborts the loop and is
propagated; otherwise the loop breaks when `next` was not invoked or
the response was finalized. -/
def runHandlers : List Handler → Request → Response → Response × Option Thrown
  | [], _, response => (response, none)
  | handler :: rest, request, response =>
    let o := handler request response
    match o.thrown with
    | some t => (o.response, some t)
    | none =>
        if !o.next || o.response.ended then (o.response, none)
        else runHandlers rest request o.response

/-- The catch logic of `createRequestListener`: an `HttpError` is kept,
any other thrown value is substituted by `HttpError(500)`; the final
catch then best-effort renders the error (status code, `text/plain`,
reason phrase as body).  If that render's `writeHead` itself fails
(the response was already finalized), the `writeHead` exception
escapes the listener. -/
def catchBoundary (r : Response) (t : Thrown) : Except Thrown Response :=
  let e : HttpError :=
    match t with
    | Thrown.httpError e => e
    | Thrown.other _ => mkHttpError 500
  match r.writeHead e.statusCode [("Content-Type", "text/plain")] with
  | Except.error _ => Except.error (Thrown.other "ERR_HTTP_HEADERS_SENT")
  | Except.ok r1 => Except.ok (r1.endWith (e.statusMessage.getD ""))

/-- `createRequestListener` from the source: run the handler loop; if
a value was thrown, classify and render it; otherwise, a finalized
response is the success outcome, and a non-finalized response raises a
synthesized `HttpError(404)` into the same catch. -/
def createRequestListener (handlers : List Handler) (request : Request)
    (response : Response) : Except Thrown Response :=
  match runHandlers handlers request response with
  | (r, some t) => catchBoundary r t
  | (r, none) =>
      if r.ended then Except.ok r
      else catchBoundary r (Thrown.httpError (mkHttpError 404))

/-- Renders a URL back from its segment representation (the inverse of
the representation convention: the string is the segments joined by
`/` after a leading `/`). -/
def segsToUrl (url : List String) : String :=
  "/" ++ String.intercalate "/" url

/-- `createStaticHandler` from the source: resolve the static file and
write it; a 404 defers to the next handler, any other error is
re-thrown.  A failure of `writeHead` itself propagates as a thrown
value. -/
def createStaticHandler (fs : Fs) (cwd : List String) (directory : List String) :
    Handler :=
  fun request response =>
    match getStaticFile fs cwd request directory with
    | Except.ok resolved =>
        let hs :=
          (match resolved.contentType with
           | some c => [("Content-Type", c)]
           | none => []) ++
          (match resolved.location with
           | some l => [("Location", segsToUrl l)]
           | none => [])
        match response.writeHead resolved.statusCode hs with
        | Except.error _ =>
            { response := response, next := false,
              thrown := some (Thrown.other "ERR_HTTP_HEADERS_SENT") }
        | Except.ok r1 =>
            { response := r1.endWith resolved.body, next := false, thrown := none }
    | Except.error e =>
        if e.statusCode = 404 then { response := response, next := true, thrown := none }
        else { response := response, next := false, thrown := some (Thrown.httpError e) }

/-! ## Demonstration fixtures

A small concrete filesystem and a handful of concrete handlers used to
instantiate the general theorems below.  The working directory is
`/srv` and the served root is `/www` (except where a relative root is
exercised). -/

/-- A concrete filesystem. -/
def demoFs : Fs := fun p =>
  if p = ["secret"] then some (FsNode.file "top secret" true)
  else if p = ["www"] then some FsNode.dir
  else if p = ["www", "index.html"] then some (FsNode.file "<html>home</html>" true)
  else if p = ["www", ".env"] then some (FsNode.file "TOKEN=1" true)
  else if p = ["www", "docs"] then some FsNode.dir
  else if p = ["www", "docs", "index.html"] then some (FsNode.file "docs index" true)
  else if p = ["www", ".git"] then some FsNode.dir
  else if p = ["www", ".git", "config"] then some (FsNode.file "[core]" true)
  else if p = ["www", ".git", "index.html"] then some (FsNode.file "git index" true)
  else if p = ["www", "noext"] then some (FsNode.file "plain data" true)
  else none

/-- A handler that only invokes its continuation. -/
def contHandler : Handler := fun _ response =>
  { response := response, next := true, thrown := none }

/-- A handler that writes and finalizes the response. -/
def writeHandler : Handler := fun _ response =>
  { response := { response with statusCode := 200, body := "hello from B", ended := true },
    next := false, thrown := none }

/-- A handler that would overwrite the response if it were ever run. -/
def poisonHandler : Handler := fun _ response =>
  { response := { response with statusCode := 200, body := "poison", ended := true },
    next := false, thrown := none }

/-- A handler that neither continues nor responds. -/
def silentHandler : Handler := fun _ response =>
  { response := response, next := false, thrown := none }

/-- A handler that throws a value that is not an `HttpError`. -/
def throwOtherHandler : Handler := fun _ response =>
  { response := response, next := false, thrown := some (Thrown.other "boom") }

/-- A handler that finalizes the response and then throws an
`HttpError`. -/
def endThenThrowHandler : Handler := fun _ response =>
  { response := { response with statusCode := 200, body := "done", ended := true },
    next := false, thrown := some (Thrown.httpError (mkHttpError 403)) }

/-- A handler that finalizes the response and then throws a value that
is not an `HttpError`. -/
def endThenThrowOtherHandler : Handler := fun _ response =>
  { response := { response with statusCode := 200, body := "hi", ended := true },
    next := false, thrown := some (Thrown.other "boom") }

/-- A concrete request. -/
def demoRequest : Request := { url := ["x"] }

/-- The fresh response the transport hands to the listener. -/
def freshResponse : Response := {}

/-! ## Helper lemmas -/

/-- `canonicalize` processes its input segment list left to right. -/
theorem canonicalize_append (xs ys stack : List String) :
    canonicalize stack (xs ++ ys) = canonicalize (canonicalize stack xs) ys := by
  induction xs generalizing stack with
  | nil => rfl
  | cons x xs ih => simp only [List.cons_append, canonicalize, List.append_eq, ih]

/-- Without `..` segments, canonicalization only ever extends the
stack: the initial stack stays a prefix of the result. -/
theorem stack_le_canonicalize (ys stack : List String) (h : ".." ∉ ys) :
    stack <+: canonicalize stack ys := by
  induction ys generalizing stack with
  | nil => exact List.prefix_rfl
  | cons y ys ih =>
    simp only [List.mem_cons, not_or] at h
    obtain ⟨hy, hys⟩ := h
    have hy2 : ¬ y = ".." := fun hh => hy hh.symm
    simp only [canonicalize, canonStep]
    by_cases h1 : y = "" ∨ y = "."
    · simp only [if_pos h1]
      exact ih stack hys
    · simp only [if_neg h1, if_neg hy2]
      exact (List.prefix_append stack [y]).trans (ih (stack ++ [y]) hys)

/-- The result of `catchBoundary` on a response that is not yet
finalized is always a successful render. -/
theorem catchBoundary_ok (r : Response) (t : Thrown) (h : r.ended = false) :
    ∃ r2, catchBoundary r t = Except.ok r2 := by
  simp only [catchBoundary, Response.writeHead, h, Bool.false_eq_true, if_false]
  exact ⟨_, rfl⟩

/-- A canonicalized segment list built from raw segments ending in
`index.html` itself ends in `index.html`. -/
theorem canonicalize_concat_index (zs stack : List String) :
    (canonicalize stack (zs ++ ["index.html"])).getLast? = some "index.html" := by
  rw [canonicalize_append]
  simp [canonicalize, canonStep]

/-- A resolved path built from raw segments ending in `index.html`
itself ends in `index.html`. -/
theorem resolvePath_concat_index (cwd zs : List String) :
    (resolvePath cwd (zs ++ ["index.html"])).getLast? = some "index.html" := by
  unfold resolvePath
  split
  · exact canonicalize_concat_index zs []
  · rw [← List.append_assoc]
    exact canonicalize_concat_index (cwd ++ zs) []

/-! ## C1: path traversal -/

/-- C1 (counterexample): the claim that no URL, including URLs with
`..` segments, resolves or serves a file outside the configured root
is false.  With working directory `/srv` and root directory `.`
(which resolves to `/srv`), the URL `/../secret` resolves to
`/secret`, which is outside the root, and `getStaticFile` reads and
serves that file. -/
theorem c1_traversal_escape :
    ¬ resolvePath ["srv"] ["."] <+: urlToPath ["srv"] ["."] ["..", "secret"] ∧
    getStaticFile demoFs ["srv"] { url := ["..", "secret"] } ["."] =
      Except.ok { body := "top secret", contentType := none, location := none,
                  statusCode := 200 } := by
  constructor
  · decide
  · rfl

/-- C1 (amended): the resolver canonicalizes `.`/`..` segments but
does not enforce containment, so a URL containing `..` segments can
resolve outside the root directory; for every URL containing no `..`
segment, the candidate path computed by `urlToPath` stays inside the
resolved root directory (the resolved root is a prefix of the
candidate path). -/
theorem c1_no_escape_without_dotdot (cwd directory url : List String)
    (hdir : directory ≠ []) (hurl : ".." ∉ url) :
    resolvePath cwd directory <+: urlToPath cwd directory url := by
  obtain ⟨d, ds, rfl⟩ : ∃ d ds, directory = d :: ds := by
    cases directory with
    | nil => exact absurd rfl hdir
    | cons d ds => exact ⟨d, ds, rfl⟩
  have hurlmem : ".." ∉ (if url.getLast? = some "" then url ++ ["index.html"] else url) := by
    split
    · intro hm
      rcases List.mem_append.1 hm with hm2 | hm2
      · exact hurl hm2
      · simp at hm2
    · exact hurl
  have key : ∀ extra : List String, ".." ∉ extra →
      resolvePath cwd (d :: ds) <+: resolvePath cwd ((d :: ds) ++ extra) := by
    intro extra hx
    unfold resolvePath
    rw [show ((d :: ds) ++ extra).head? = (d :: ds : List String).head? from rfl]
    by_cases hd : (d :: ds : List String).head? = some ""
    · rw [if_pos hd, if_pos hd, canonicalize_append]
      exact stack_le_canonicalize extra _ hx
    · rw [if_neg hd, if_neg hd]
      have e1 : canonicalize [] (cwd ++ ((d :: ds) ++ extra))
          = canonicalize (canonicalize [] (cwd ++ (d :: ds))) extra := by
        rw [← List.append_assoc]
        exact canonicalize_append (cwd ++ (d :: ds)) extra []
      rw [e1]
      exact stack_le_canonicalize extra _ hx
  exact key _ hurlmem

/-- C1 (witness): a `..`-free URL stays inside the root. -/
theorem c1_no_escape_without_dotdot_witness :
    resolvePath ["srv"] ["."] <+: urlToPath ["srv"] ["."] ["assets", "app.css"] :=
  c1_no_escape_without_dotdot ["srv"] ["."] ["assets", "app.css"]
    (by decide) (by decide)

/-! ## C2: no exception escapes the listener -/

/-- C2 (counterexample): the claim that the handler-chain executor
never lets an exception escape to the transport layer is false.  A
handler that finalizes the response and then throws an `HttpError`
drives the final render onto an already-finalized response; the
render's own `writeHead` failure escapes `createRequestListener`. -/
theorem c2_escape_after_finalized :
    createRequestListener [endThenThrowHandler] demoRequest freshResponse =
      Except.error (Thrown.other "ERR_HTTP_HEADERS_SENT") := rfl

/-- C2 (amended): the final render is not guarded: its failure (the
response was already finalized when the error render runs) is the one
way an exception escapes `createRequestListener`.  Whenever the
response left by the handler loop is not finalized in the thrown case,
the executor returns a rendered response and no exception escapes. -/
theorem c2_no_escape_unless_finalized (handlers : List Handler) (request : Request)
    (response : Response)
    (h : (runHandlers handlers request response).1.ended = true →
      (runHandlers handlers request response).2 = none) :
    ∃ r, createRequestListener handlers request response = Except.ok r := by
  rcases hrun : runHandlers handlers request response with ⟨r, topt⟩
  rw [hrun] at h
  unfold createRequestListener
  rw [hrun]
  cases topt with
  | some t =>
    have hne : r.ended = false := by
      cases he : r.ended
      · rfl
      · exact absurd (h he) (by simp)
    exact catchBoundary_ok r t hne
  | none =>
    show ∃ r2, (if r.ended = true then Except.ok r
        else catchBoundary r (Thrown.httpError (mkHttpError 404))) = Except.ok r2
    cases he : r.ended
    · rw [if_neg (by simp [he])]
      exact catchBoundary_ok r _ he
    · exact ⟨r, by rw [if_pos rfl]⟩

/-- C2 (witness): with no handlers the loop leaves a fresh response
and the 404 render succeeds, so no exception escapes. -/
theorem c2_no_escape_unless_finalized_witness :
    ∃ r, createRequestListener [] demoRequest freshResponse = Except.ok r :=
  c2_no_escape_unless_finalized [] demoRequest freshResponse (fun _ => rfl)

/-! ## C3: the chain stops at the handler that responds -/

/-- C3: for handlers `A :: B :: rest` where `A` invokes its
continuation without touching the response and `B` finishes with the
response finalized and nothing thrown, the listener's result is
exactly the response `B` wrote; the result does not depend on `rest`,
so no handler after `B` is ever invoked. -/
theorem c3_chain_stops_at_writer (A B : Handler) (rest : List Handler)
    (request : Request) (response : Response)
    (h0 : response.ended = false)
    (hA : A request response = { response := response, next := true, thrown := none })
    (hBt : (B request response).thrown = none)
    (hBe : (B request response).response.ended = true) :
    createRequestListener (A :: B :: rest) request response =
      Except.ok ((B request response).response) := by
  have hrun : runHandlers (A :: B :: rest) request response =
      ((B request response).response, none) := by
    simp only [runHandlers, hA, h0, hBt, hBe, Bool.not_true, Bool.false_or,
      Bool.or_true, Bool.false_eq_true, if_false, if_true]
  unfold createRequestListener
  rw [hrun]
  show (if (B request response).response.ended = true then
      Except.ok ((B request response).response)
    else catchBoundary ((B request response).response
      ) (Thrown.httpError (mkHttpError 404))) = Except.ok ((B request response).response)
  rw [if_pos hBe]

/-- C3 (witness): with a continuing handler, a writing handler, and a
would-be third handler, the final response is the writer's and the
third handler's write never appears. -/
theorem c3_chain_stops_at_writer_witness :
    createRequestListener [contHandler, writeHandler, poisonHandler]
        demoRequest freshResponse =
      Except.ok ((writeHandler demoRequest freshResponse).response) :=
  c3_chain_stops_at_writer contHandler writeHandler [poisonHandler]
    demoRequest freshResponse rfl rfl rfl rfl

/-! ## C4: non-finalized responses produce a rendered 404 -/

/-- C4: whenever the handler loop finishes with nothing thrown and the
response not finalized — covering both a chain that was exhausted with
every handler continuing and a handler that neither continued nor
responded — the executor synthesizes `HttpError(404)` and renders a
response with status 404, `Content-Type: text/plain`, and body equal
to the reason phrase `Not Found`. -/
theorem c4_unfinalized_renders_404 (handlers : List Handler) (request : Request)
    (response r : Response)
    (h : runHandlers handlers request response = (r, none))
    (hne : r.ended = false) :
    createRequestListener handlers request response =
      Except.ok { ended := true, statusCode := 404,
                  headers := [("Content-Type", "text/plain")], body := "Not Found" } := by
  unfold createRequestListener
  rw [h]
  show (if r.ended = true then Except.ok r
      else catchBoundary r (Thrown.httpError (mkHttpError 404))) = _
  rw [if_neg (by simp [hne])]
  cases r with
  | mk ended statusCode headers body =>
    simp only [Response.ended] at hne
    subst hne
    rfl

/-- C4 (witness): a single handler that neither continues nor responds
yields the rendered 404. -/
theorem c4_unfinalized_renders_404_witness :
    createRequestListener [silentHandler] demoRequest freshResponse =
      Except.ok { ended := true, statusCode := 404,
                  headers := [("Content-Type", "text/plain")], body := "Not Found" } :=
  c4_unfinalized_renders_404 [silentHandler] demoRequest freshResponse
    freshResponse rfl rfl

/-! ## C5: raw thrown values are substituted by a 500 -/

/-- C5 (counterexample): the claim that every request during which a
handler raises a non-`HttpError` value ends in a rendered 500 response
is false: a handler that finalizes the response and then raises a raw
value drives the 500 render onto an already-finalized response, so the
render fails and the listener propagates the failure instead of
producing the 500 response. -/
theorem c5_finalized_then_raw_throw :
    createRequestListener [endThenThrowOtherHandler] demoRequest freshResponse =
      Except.error (Thrown.other "ERR_HTTP_HEADERS_SENT") := rfl

/-- C5 (amended): when a handler raises a value that is not an
`HttpError` and the response was not finalized before the raise, the
executor substitutes `HttpError(500)` and renders status 500 with body
`Internal Server Error`; the rendered response is the same for every
raised message, so the raw raised value never appears in the body
(and when the response was already finalized, nothing further is
written at all). -/
theorem c5_raw_throw_renders_500 (handlers : List Handler) (request : Request)
    (response r : Response) (message : String)
    (h : runHandlers handlers request response = (r, some (Thrown.other message)))
    (hne : r.ended = false) :
    createRequestListener handlers request response =
      Except.ok { ended := true, statusCode := 500,
                  headers := [("Content-Type", "text/plain")],
                  body := "Internal Server Error" } := by
  unfold createRequestListener
  rw [h]
  show catchBoundary r (Thrown.other message) = _
  cases r with
  | mk ended statusCode headers body =>
    simp only [Response.ended] at hne
    subst hne
    rfl

/-- C5 (witness): a handler that throws `"boom"` without touching the
response yields the rendered 500 whose body does not contain the
thrown message. -/
theorem c5_raw_throw_renders_500_witness :
    createRequestListener [throwOtherHandler] demoRequest freshResponse =
      Except.ok { ended := true, statusCode := 500,
                  headers := [("Content-Type", "text/plain")],
                  body := "Internal Server Error" } :=
  c5_raw_throw_renders_500 [throwOtherHandler] demoRequest freshResponse
    freshResponse "boom" rfl rfl

/-! ## C6: dotfiles are denied before any read -/

/-- C6: whenever the base name of the candidate path starts with `.`,
`getStaticFile` fails with `HttpError(403)` for every filesystem — in
particular regardless of whether the file exists or is readable, since
the check precedes the read. -/
theorem c6_dotfile_denied (fs : Fs) (cwd directory : List String) (request : Request)
    (h : strStartsWith (parseNameExt (urlToPath cwd directory request.url)).1 "." = true) :
    getStaticFile fs cwd request directory = Except.error (mkHttpError 403) := by
  unfold getStaticFile
  rw [if_pos h]

/-- C6 (witness): `/.env` is denied with 403 even though the demo
filesystem holds a readable file there. -/
theorem c6_dotfile_denied_witness :
    demoFs (urlToPath ["srv"] ["", "www"] [".env"])
        = some (FsNode.file "TOKEN=1" true) ∧
    getStaticFile demoFs ["srv"] { url := [".env"] } ["", "www"]
        = Except.error (mkHttpError 403) :=
  ⟨rfl, c6_dotfile_denied demoFs ["srv"] ["", "www"] { url := [".env"] } rfl⟩

/-! ## C7: directories without trailing separator redirect -/

/-- C7 (counterexample): the claim that every URL mapping to an
existing directory without trailing separator yields a 302 redirect is
false: `/.git` maps to an existing directory of the demo filesystem
and has no trailing separator, yet resolution yields `HttpError(403)`
because the dotfile check fires first. -/
theorem c7_dot_directory_forbidden :
    demoFs (urlToPath ["srv"] ["", "www"] [".git"]) = some FsNode.dir ∧
    ([".git"] : List String).getLast? ≠ some "" ∧
    getStaticFile demoFs ["srv"] { url := [".git"] } ["", "www"]
      = Except.error (mkHttpError 403) := by
  refine ⟨rfl, by decide, rfl⟩

/-- C7 (amended): for every URL whose candidate path's base name does
not start with `.`, if the candidate maps to an existing directory and
the URL does not end in a path separator, resolution returns a
non-error result with status 302, an empty body, and a `Location`
value equal to the original request URL with a separator appended. -/
theorem c7_directory_redirect (fs : Fs) (cwd directory : List String)
    (request : Request)
    (hsep : request.url.getLast? ≠ some "")
    (hname : strStartsWith (parseNameExt (urlToPath cwd directory request.url)).1 "."
      = false)
    (hdir : fs (urlToPath cwd directory request.url) = some FsNode.dir) :
    getStaticFile fs cwd request directory =
      Except.ok { body := "", contentType := none,
                  location := some (request.url ++ [""]), statusCode := 302 } := by
  unfold getStaticFile
  rw [if_neg (by simp [hname])]
  unfold readFile
  rw [hdir]

/-- C7 (witness): `/docs` maps to a directory and redirects to
`/docs/`. -/
theorem c7_directory_redirect_witness :
    getStaticFile demoFs ["srv"] { url := ["docs"] } ["", "www"] =
      Except.ok { body := "", contentType := none,
                  location := some (["docs"] ++ [""]), statusCode := 302 } :=
  c7_directory_redirect demoFs ["srv"] ["", "www"] { url := ["docs"] }
    (by decide) rfl rfl

/-! ## C8: HttpError construction range -/

/-- C8: `HttpError` construction fails for every code strictly below
400 or strictly above 599, and succeeds for every code in [400, 599],
producing a value whose `statusCode` is the given code and whose
`statusMessage` is the phrase looked up for that code in the
status-code-to-phrase table. -/
theorem c8_httpError_range (code : Nat) :
    ((code < 400 ∨ code > 599) →
      HttpError.make code =
        Except.error ("HTTP status code " ++ toString code ++ " is not an error")) ∧
    (400 ≤ code → code ≤ 599 →
      HttpError.make code =
        Except.ok { statusCode := code, statusMessage := statusCodes code }) := by
  constructor
  · intro h
    unfold HttpError.make
    rw [if_pos h]
  · intro h1 h2
    unfold HttpError.make mkHttpError
    rw [if_neg (by omega)]

/-- C8 (witness): 399 is rejected, 404 is accepted with the phrase
from the table. -/
theorem c8_httpError_range_witness :
    HttpError.make 399 =
      Except.error ("HTTP status code " ++ toString 399 ++ " is not an error") ∧
    HttpError.make 404 =
      Except.ok { statusCode := 404, statusMessage := statusCodes 404 } :=
  ⟨(c8_httpError_range 399).1 (Or.inl (by decide)),
   (c8_httpError_range 404).2 (by decide) (by decide)⟩

/-! ## C9: unknown extensions carry no Content-Type and are no error -/

/-- C9: for every successfully read file whose extension the MIME
collaborator does not know, the result is a 200 response whose
`Content-Type` header is absent; the unknown extension is never
treated as an error. -/
theorem c9_unknown_extension_no_content_type (fs : Fs) (cwd directory : List String)
    (request : Request) (contents : String)
    (hname : strStartsWith (parseNameExt (urlToPath cwd directory request.url)).1 "."
      = false)
    (hfile : fs (urlToPath cwd directory request.url)
      = some (FsNode.file contents true))
    (hmime : mimeContentType (parseNameExt (urlToPath cwd directory request.url)).2
      = none) :
    getStaticFile fs cwd request directory =
      Except.ok { body := contents, contentType := none, location := none,
                  statusCode := 200 } := by
  unfold getStaticFile
  rw [if_neg (by simp [hname])]
  unfold readFile
  rw [hfile, hmime]

/-- C9 (witness): `/noext` has no extension, the MIME lookup yields
nothing, and the file is served with 200 and no `Content-Type`. -/
theorem c9_unknown_extension_no_content_type_witness :
    getStaticFile demoFs ["srv"] { url := ["noext"] } ["", "www"] =
      Except.ok { body := "plain data", contentType := none, location := none,
                  statusCode := 200 } :=
  c9_unknown_extension_no_content_type demoFs ["srv"] ["", "www"]
    { url := ["noext"] } "plain data" rfl rfl rfl

/-! ## C10: the dotfile check inspects only the base name -/

/-- C10: the dotfile check inspects only the base name of the
candidate path.  First part: for every URL whose candidate base name
does not begin with `.`, a readable file at the candidate path is read
and served with 200 — intermediate dot-named directory segments do not
matter, since only the final segment is inspected.  Second part: for
every URL ending in a separator, the appended `index.html` makes the
candidate's base name `index`, which passes the check, and a readable
index file at the candidate path is served with 200 — including below
a dot-named directory. -/
theorem c10_dotfile_check_only_base_name :
    (∀ (fs : Fs) (cwd directory : List String) (request : Request)
        (contents : String),
      strStartsWith (parseNameExt (urlToPath cwd directory request.url)).1 "."
        = false →
      fs (urlToPath cwd directory request.url) = some (FsNode.file contents true) →
      getStaticFile fs cwd request directory =
        Except.ok { body := contents,
                    contentType := mimeContentType
                      (parseNameExt (urlToPath cwd directory request.url)).2,
                    location := none, statusCode := 200 }) ∧
    (∀ (fs : Fs) (cwd directory : List String) (request : Request)
        (contents : String),
      request.url.getLast? = some "" →
      fs (urlToPath cwd directory request.url) = some (FsNode.file contents true) →
      (parseNameExt (urlToPath cwd directory request.url)).1 = "index" ∧
      getStaticFile fs cwd request directory =
        Except.ok { body := contents,
                    contentType := mimeContentType
                      (parseNameExt (urlToPath cwd directory request.url)).2,
                    location := none, statusCode := 200 }) := by
  have serve : ∀ (fs : Fs) (cwd directory : List String) (request : Request)
      (contents : String),
      strStartsWith (parseNameExt (urlToPath cwd directory request.url)).1 "."
        = false →
      fs (urlToPath cwd directory request.url) = some (FsNode.file contents true) →
      getStaticFile fs cwd request directory =
        Except.ok { body := contents,
                    contentType := mimeContentType
                      (parseNameExt (urlToPath cwd directory request.url)).2,
                    location := none, statusCode := 200 } := by
    intro fs cwd directory request contents hname hfile
    unfold getStaticFile
    rw [if_neg (by simp [hname])]
    unfold readFile
    rw [hfile]
  have hindex : ∀ (cwd directory : List String) (request : Request),
      request.url.getLast? = some "" →
      (parseNameExt (urlToPath cwd directory request.url)).1 = "index" := by
    intro cwd directory request hsep
    have hlast : (urlToPath cwd directory request.url).getLast? = some "index.html" := by
      unfold urlToPath
      rw [if_pos hsep, ← List.append_assoc]
      exact resolvePath_concat_index cwd (directory ++ request.url)
    unfold parseNameExt
    rw [hlast]
    rfl
  refine ⟨serve, fun fs cwd directory request contents hsep hfile => ?_⟩
  have hname := hindex cwd directory request hsep
  exact ⟨hname, serve fs cwd directory request contents (by rw [hname]; rfl) hfile⟩

/-- C10 (witness): `/.git/config` is served although an intermediate
segment is dot-named, and `/.git/` serves that directory's index
file. -/
theorem c10_dotfile_check_only_base_name_witness :
    getStaticFile demoFs ["srv"] { url := [".git", "config"] } ["", "www"] =
      Except.ok { body := "[core]", contentType := none, location := none,
                  statusCode := 200 } ∧
    ((parseNameExt (urlToPath ["srv"] ["", "www"] [".git", ""])).1 = "index" ∧
      getStaticFile demoFs ["srv"] { url := [".git", ""] } ["", "www"] =
        Except.ok { body := "git index",
                    contentType := some "text/html; charset=utf-8",
                    location := none, statusCode := 200 }) :=
  ⟨c10_dotfile_check_only_base_name.1 demoFs ["srv"] ["", "www"]
      { url := [".git", "config"] } "[core]" rfl rfl,
   c10_dotfile_check_only_base_name.2 demoFs ["srv"] ["", "www"]
      { url := [".git", ""] } "git index" rfl rfl⟩

end StaticServer
